import Mathlib

/-!
Shallow embedding of the `rst` response-generation pipeline (`handlers.go`).

Machine integers (`uint64`) are modelled as `Nat` with explicit `% 2 ^ 64`
where Go's wraparound matters.  Times are modelled as `Int` seconds; Go's
`time.Time` zero value is the constant `goZeroTime`.  The HTTP
`ResponseWriter` is modelled as a `Response` record accumulated by the
pipeline: a second call to `WriteHeader` is a no-op, exactly as in
`net/http`, and `Write` sends status 200 first when no status was written.
External collaborators that live outside `handlers.go` (the marshaler, the
compression negotiator, date formatting, and the `Range`-header
parse/validate/adjust black box) are passed in as an `Env` of functions.
-/

namespace Rst

/-- HTTP method constant `Head` of the source package. -/
def Head : String := "HEAD"

/-- HTTP method constant `Get` of the source package. -/
def Get : String := "GET"

/-- HTTP method constant `Patch` of the source package. -/
def Patch : String := "PATCH"

/-- HTTP method constant `Put` of the source package. -/
def Put : String := "PUT"

/-- HTTP method constant `Post` of the source package. -/
def Post : String := "POST"

/-- HTTP method constant `Delete` of the source package. -/
def Delete : String := "DELETE"

/-- HTTP method constant `Options` of the source package. -/
def Options : String := "OPTIONS"

/-- Split a character list at every `';'`, keeping empty fields, as Go's
`strings.Split(s, ";")` does. -/
def splitSemiAux : List Char → List (List Char)
  | [] => [[]]
  | c :: cs =>
    match splitSemiAux cs with
    | [] => [[c]]
    | g :: gs => if c = ';' then [] :: g :: gs else (c :: g) :: gs

/-- Go's `strings.Split(s, ";")`: the empty string yields the single entry
`""`. -/
def goSplitSemicolon (s : String) : List String :=
  (splitSemiAux s.data).map (fun l => String.mk l)

/-- Go's `strings.ToUpper` on the ASCII method names. -/
def strToUpper (s : String) : String :=
  String.mk (s.data.map Char.toUpper)

/-- Seconds from the Unix epoch back to Go's `time.Time` zero value
(January 1, year 1, 00:00:00 UTC).  `time.Parse` returns this zero value
together with an error when parsing fails, and `date, _ := time.Parse(...)`
keeps the zero value. -/
def goZeroTime : Int := -62135596800

/-- An error value, as produced by the operations of an endpoint and
consumed by `ErrorHandler`.  Modelled from the spec: each error kind maps
to exactly one status code and carries a body describing the condition. -/
structure Err where
  status : Nat
  msg : String
deriving DecidableEq

/-- A request, with conditional headers already split into their raw string
form (`Header.Get` returns `""` for an absent header) and, for the date
headers, the result of `time.Parse` with the `rfc1123` layout (`none`
meaning the parse failed, which is in particular the case for an absent
header). -/
structure Request where
  method : String
  vars : List (String × String)
  ifModifiedSince : Option Int
  ifNoneMatch : String
  ifUnmodifiedSince : Option Int
  ifMatch : String
  ifRange : String
  ifRangeDate : Option Int
  range : String

/-- The state of an `http.ResponseWriter`: the status written (at most
once), the header map (Go's `http.Header` maps a key to a list of values;
`Get` returns the first), the body bytes written so far, and a record of
the error, if any, handed to `ErrorHandler`. -/
structure Response where
  status : Option Nat
  headers : String → List String
  body : String
  wroteErr : Option Err

/-- Header `Set`: replaces all values of the key. -/
def setHeader (w : Response) (k v : String) : Response :=
  { w with headers := fun k2 => if k2 = k then [v] else w.headers k2 }

/-- Header `Add`: appends a value to the key, keeping earlier values first. -/
def addHeader (w : Response) (k v : String) : Response :=
  { w with headers := fun k2 => if k2 = k then w.headers k2 ++ [v] else w.headers k2 }

/-- Header `Get`: first value of the key, or `""` when there is none. -/
def getHeader (w : Response) (k : String) : String :=
  ((w.headers k).head?).getD ""

/-- `WriteHeader`: writes the status code; a second call is superfluous and
ignored, as in `net/http`. -/
def writeHeader (w : Response) (code : Nat) : Response :=
  match w.status with
  | some _ => w
  | none => { w with status := some code }

/-- `Write`: appends bytes to the body, first writing status 200 when no
status has been written yet, as in `net/http`. -/
def writeBytes (w : Response) (b : String) : Response :=
  match w.status with
  | some _ => { w with body := w.body ++ b }
  | none => { w with status := some 200, body := w.body ++ b }

/-- One operation a resource that implements `http.Handler` can perform on
the `ResponseWriter` it is handed. -/
inductive WriterOp where
  | setOp (k v : String)
  | addOp (k v : String)
  | statusOp (code : Nat)
  | writeOp (b : String)

/-- Apply one `WriterOp` to the response state. -/
def applyOp (w : Response) : WriterOp → Response
  | .setOp k v => setHeader w k v
  | .addOp k v => addHeader w k v
  | .statusOp c => writeHeader w c
  | .writeOp b => writeBytes w b

/-- Apply a sequence of `WriterOp`s in order. -/
def applyOps (w : Response) (ops : List WriterOp) : Response :=
  ops.foldl applyOp w

/-- A `Resource`: `ETag()`, `LastModified()` and `TTL()`, plus the optional
`http.Handler` implementation (a resource that takes direct control of the
response writes some sequence of `WriterOp`s that may depend on the
request). -/
structure Resource where
  etag : String
  lastModified : Int
  ttl : Int
  handler : Option (Request → List WriterOp)

/-- A parsed `Range` header value.  Modelled from the spec: the black-box
parser produces a span `{From, To}` (as `uint64`, modelled as `Nat`)
together with the range unit checked against `Units()`. -/
structure Range where
  Unit : String
  From : Nat
  To : Nat

/-- A `ContentRange`: the span actually served and the total addressable
size.  Modelled from the spec: `{From, To, Total}` rendered in the header
as `<unit> <from>-<to>/<total>`. -/
structure ContentRange where
  Unit : String
  From : Nat
  To : Nat
  Total : Nat

/-- Go's `n - 1` on `uint64`: wraps to `2 ^ 64 - 1` when `n = 0`. -/
def u64pred (n : Nat) : Nat := (n + (2 ^ 64 - 1)) % 2 ^ 64

/-- Modelled from the spec: `ContentRange.String()` renders the header
value in the format `<unit> <from>-<to>/<total>`. -/
def crString (cr : ContentRange) : String :=
  cr.Unit ++ " " ++ toString cr.From ++ "-" ++ toString cr.To ++ "/" ++ toString cr.Total

/-- The `Ranger` capability of a resource: `Units()`, `Count()` and
`Range()`. -/
structure RangerData where
  units : List String
  count : Nat
  rangeFn : Range → Except Err (ContentRange × Resource)

/-- The collaborators of `handlers.go` that live outside it: `Marshal`,
`getCompressionFormat`, date formatting and the current time (for the
`Expires` header), and the `Range`-header black box `ParseRange` /
`(*Range).validate` / `(*Range).adjust`. -/
structure Env where
  marshal : Resource → Request → Except Err (String × String)
  getCompressionFormat : String → Request → String
  fmtDate : Int → String
  now : Int
  parseRange : String → Except Err Range
  validate : Range → RangerData → Option Err
  adjust : Range → RangerData → Except Err Range

/-- Modelled from the spec: `writeError` hands the error to `ErrorHandler`,
which answers with the error's status code and a body describing the
condition; the record field `wroteErr` marks that an error response was
produced. -/
def writeError (e : Err) (w : Response) (_r : Request) : Response :=
  let w1 := writeHeader w e.status
  { w1 with body := w1.body ++ e.msg, wroteErr := some e }

/-- The `If-Unmodified-Since` branch of `ValidateConditions`: the header
parses and the parsed date is strictly earlier than `LastModified()`. -/
def ifUnmodifiedSinceConflict (resource : Resource) (r : Request) : Bool :=
  match r.ifUnmodifiedSince with
  | some d => decide (d - resource.lastModified < 0)
  | none => false

/-- `ValidateConditions` returns true if the `If-Unmodified-Since` or the
`If-Match` headers of `r` are not matching with the current version of
`resource`. -/
def ValidateConditions (resource : Resource) (r : Request) : Bool :=
  if ifUnmodifiedSinceConflict resource r then true
  else if r.ifMatch != "" && r.ifMatch != resource.etag then true
  else false

/-- The time-based conditional-retrieval test of `writeResource`: the
`If-Modified-Since` header parses and `t.Sub(LastModified()).Seconds() >= 0`. -/
def imsMatch (resource : Resource) (r : Request) : Bool :=
  match r.ifModifiedSince with
  | some t => decide (0 ≤ t - resource.lastModified)
  | none => false

/-- The ETag-based conditional-retrieval test of `writeResource`: some
entry of the `If-None-Match` header split on `";"` equals `ETag()`. -/
def inmMatch (resource : Resource) (r : Request) : Bool :=
  (goSplitSemicolon r.ifNoneMatch).any (fun t => t == resource.etag)

/-- `writeResource`: the shared response pipeline of `handlers.go`. -/
def writeResource (env : Env) (resource : Resource) (w : Response) (r : Request) : Response :=
  if imsMatch resource r then writeHeader w 304
  else if inmMatch resource r then writeHeader w 304
  else
    let w1 := addHeader w "Vary" "Accept"
    let w2 := setHeader w1 "Last-Modified" (env.fmtDate resource.lastModified)
    let w3 := setHeader w2 "ETag" resource.etag
    let w4 := setHeader w3 "Expires" (env.fmtDate (env.now + resource.ttl))
    match resource.handler with
    | some h => applyOps w4 (h r)
    | none =>
      match env.marshal resource r with
      | .error e => writeError e w4 r
      | .ok (contentType, b) =>
        let w5 := setHeader w4 "Content-Type" contentType
        let compression := env.getCompressionFormat b r
        let w6 :=
          if compression != "" then
            addHeader (setHeader w5 "Content-Encoding" compression) "Vary" "Accept-Encoding"
          else w5
        if strToUpper r.method == Post then writeBytes (writeHeader w6 201) b
        else if b.length == 0 then writeHeader w6 204
        else
          let w7 :=
            if getHeader w6 "Content-Range" != "" then writeHeader w6 206
            else writeHeader w6 200
          if strToUpper r.method == Head then w7
          else writeBytes w7 b

/-- The `If-Range` precondition failure test of `getFunc.ServeHTTP`: the
header is present, `time.Parse`'s result (the zero time on failure) does
not equal `LastModified()`, and the raw value differs from `ETag()`. -/
def ifRangeFails (resource : Resource) (r : Request) : Bool :=
  r.ifRange != "" &&
    !((r.ifRangeDate.getD goZeroTime) == resource.lastModified) &&
    r.ifRange != resource.etag

/-- The tail of `getFunc.ServeHTTP` once the range is to be honored:
adjust, call `Range()`, add `Vary: Range`, set `Content-Range` when the
served span is not the entire resource, and write the partial resource. -/
def serveRange (env : Env) (ranger : RangerData) (rg : Range) (w : Response)
    (r : Request) : Response :=
  match env.adjust rg ranger with
  | .error e => writeError e w r
  | .ok rg2 =>
    match ranger.rangeFn rg2 with
    | .error e => writeError e w r
    | .ok (cr, part) =>
      let wv := addHeader w "Vary" "Range"
      let wc :=
        if cr.From != 0 || cr.To != u64pred cr.Total then
          setHeader wv "Content-Range" (crString cr)
        else wv
      writeResource env part wc r

/-- The signature of a `Getter` operation; the `Option RangerData` records
the outcome of the `resource.(Ranger)` type assertion on the returned
resource. -/
abbrev GetFn := List (String × String) → Request → Except Err (Option (Resource × Option RangerData))

/-- The signature of a `Patcher` or `Putter` operation. -/
abbrev WriteFn := List (String × String) → Request → Except Err (Option Resource)

/-- The signature of a `Poster` operation: the created resource and its
location. -/
abbrev PostFn := List (String × String) → Request → Except Err (Option Resource × String)

/-- The signature of a `Deleter` operation. -/
abbrev DeleteFn := List (String × String) → Request → Except Err Unit

/-- `getFunc.ServeHTTP`. -/
def getFuncServeHTTP (env : Env) (f : GetFn) (w : Response) (r : Request) : Response :=
  match f r.vars r with
  | .error e => writeError e w r
  | .ok none => writeHeader w 204
  | .ok (some (resource, rangerOpt)) =>
    match rangerOpt with
    | none => writeResource env resource w r
    | some ranger =>
      let w1 := setHeader w "Accept-Ranges" (String.intercalate ", " ranger.units)
      match env.parseRange r.range with
      | .error _ => writeResource env resource w1 r
      | .ok rg =>
        match env.validate rg ranger with
        | some _ => writeResource env resource w1 r
        | none =>
          if ifRangeFails resource r then writeResource env resource w1 r
          else serveRange env ranger rg w1 r

/-- `patchFunc.ServeHTTP`. -/
def patchFuncServeHTTP (env : Env) (f : WriteFn) (w : Response) (r : Request) : Response :=
  match f r.vars r with
  | .error e => writeError e w r
  | .ok res? =>
    let w1 := writeHeader w 200
    match res? with
    | none => w1
    | some resource => writeResource env resource w1 r

/-- `putFunc.ServeHTTP`. -/
def putFuncServeHTTP (env : Env) (f : WriteFn) (w : Response) (r : Request) : Response :=
  match f r.vars r with
  | .error e => writeError e w r
  | .ok res? =>
    let w1 := writeHeader w 200
    match res? with
    | none => w1
    | some resource => writeResource env resource w1 r

/-- `postFunc.ServeHTTP`. -/
def postFuncServeHTTP (env : Env) (f : PostFn) (w : Response) (r : Request) : Response :=
  match f r.vars r with
  | .error e => writeError e w r
  | .ok (res?, location) =>
    let w1 := if location != "" then addHeader w "Location" location else w
    match res? with
    | none => writeHeader w1 201
    | some resource => writeResource env resource w1 r

/-- `deleteFunc.ServeHTTP`. -/
def deleteFuncServeHTTP (_env : Env) (f : DeleteFn) (w : Response) (r : Request) : Response :=
  match f r.vars r with
  | .error e => writeError e w r
  | .ok _ => writeHeader w 204

/-- An `Endpoint`: the outcome of the five capability type assertions, each
carrying the bound operation when the capability is implemented. -/
structure Endpoint where
  getter : Option GetFn
  patcher : Option WriteFn
  putter : Option WriteFn
  poster : Option PostFn
  deleter : Option DeleteFn

/-- The handler value returned by `getMethodHandler`: which adapter is
bound, holding the endpoint's operation. -/
inductive MHandler where
  | optionsH
  | getH (f : GetFn)
  | patchH (f : WriteFn)
  | putH (f : WriteFn)
  | postH (f : PostFn)
  | deleteH (f : DeleteFn)

/-- `getMethodHandler`: the switch on `strings.ToUpper(method)` of
`handlers.go`; `none` models the Go function returning `nil`. -/
def getMethodHandler (endpoint : Endpoint) (method : String) : Option MHandler :=
  if strToUpper method == Options then some .optionsH
  else if strToUpper method == Head || strToUpper method == Get then
    endpoint.getter.map .getH
  else if strToUpper method == Patch then endpoint.patcher.map .patchH
  else if strToUpper method == Put then endpoint.putter.map .putH
  else if strToUpper method == Post then endpoint.poster.map .postH
  else if strToUpper method == Delete then endpoint.deleter.map .deleteH
  else none

/-- The package-level `supportedMethods` list, in its fixed order. -/
def supportedMethods : List String := [Head, Get, Patch, Put, Post, Delete]

/-- `AllowedMethods`: the supported methods for which `getMethodHandler`
returns a handler. -/
def AllowedMethods (endpoint : Endpoint) : List String :=
  supportedMethods.filter (fun m => (getMethodHandler endpoint m).isSome)

/-- `optionsHandler`: answers an `OPTIONS` request with the `Allow` list,
the `Content-Type` alternatives and status 204, and does nothing for any
other method (the wrapped closure returns without writing).  The
package-level `alternatives` configuration is passed as a parameter. -/
def optionsHandler (alternatives : List String) (endpoint : Endpoint)
    (w : Response) (r : Request) : Response :=
  if r.method != Options then w
  else
    let w1 := setHeader w "Allow" (String.intercalate ", " (AllowedMethods endpoint))
    let w2 := setHeader w1 "Content-Type" (String.intercalate ";" alternatives)
    writeHeader w2 204

/-- `ServeHTTP` of the handler value returned by `getMethodHandler`. -/
def MHandler.serve (env : Env) (alternatives : List String) (endpoint : Endpoint) :
    MHandler → Response → Request → Response
  | .optionsH => optionsHandler alternatives endpoint
  | .getH f => getFuncServeHTTP env f
  | .patchH f => patchFuncServeHTTP env f
  | .putH f => putFuncServeHTTP env f
  | .postH f => postFuncServeHTTP env f
  | .deleteH f => deleteFuncServeHTTP env f

/-- Modelled from the spec: `MethodNotAllowed` answers 405 carrying the
computed `Allow` list. -/
def MethodNotAllowed (method : String) (allowed : List String)
    (w : Response) (r : Request) : Response :=
  writeError { status := 405, msg := "method " ++ method ++ " is not allowed" }
    (setHeader w "Allow" (String.intercalate ", " allowed)) r

/-- Modelled from the spec: `NotFound` answers 404. -/
def NotFound (w : Response) (r : Request) : Response :=
  writeError { status := 404, msg := "not found" } w r

/-- `endpointHandler.ServeHTTP`: resolve the method, falling back to 405
with the `Allow` list when the endpoint supports at least one method and to
404 otherwise. -/
def endpointHandlerServeHTTP (env : Env) (alternatives : List String)
    (endpoint : Endpoint) (w : Response) (r : Request) : Response :=
  match getMethodHandler endpoint r.method with
  | some h => h.serve env alternatives endpoint w r
  | none =>
    if (AllowedMethods endpoint).length > 0 then
      MethodNotAllowed r.method (AllowedMethods endpoint) w r
    else
      NotFound w r

/-! Basic preservation lemmas about the `ResponseWriter` model. -/

/-- Setting a header does not change the status. -/
theorem status_setHeader (w : Response) (k v : String) :
    (setHeader w k v).status = w.status := rfl

/-- Adding a header does not change the status. -/
theorem status_addHeader (w : Response) (k v : String) :
    (addHeader w k v).status = w.status := rfl

/-- A written status survives `writeHeader` (the second call is ignored). -/
theorem status_writeHeader_some (w : Response) (c s : Nat) (h : w.status = some s) :
    (writeHeader w c).status = some s := by
  unfold writeHeader
  rw [h]
  exact h

/-- A written status survives `writeBytes`. -/
theorem status_writeBytes_some (w : Response) (b : String) (s : Nat) (h : w.status = some s) :
    (writeBytes w b).status = some s := by
  unfold writeBytes
  rw [h]

/-- A written status survives `writeError`. -/
theorem status_writeError_some (e : Err) (w : Response) (r : Request) (s : Nat)
    (h : w.status = some s) : (writeError e w r).status = some s := by
  unfold writeError
  simp [status_writeHeader_some w e.status s h]

/-- A written status survives any single `WriterOp`. -/
theorem status_applyOp_some (w : Response) (op : WriterOp) (s : Nat) (h : w.status = some s) :
    (applyOp w op).status = some s := by
  cases op with
  | setOp k v => simpa [applyOp, status_setHeader] using h
  | addOp k v => simpa [applyOp, status_addHeader] using h
  | statusOp c => simpa [applyOp] using status_writeHeader_some w c s h
  | writeOp b => simpa [applyOp] using status_writeBytes_some w b s h

/-- A written status survives any sequence of `WriterOp`s. -/
theorem status_applyOps_some (ops : List WriterOp) (w : Response) (s : Nat)
    (h : w.status = some s) : (applyOps w ops).status = some s := by
  induction ops generalizing w with
  | nil => simpa [applyOps] using h
  | cons op ops ih =>
    have h1 := status_applyOp_some w op s h
    simpa [applyOps, List.foldl_cons] using ih (applyOp w op) h1

/-- A written status survives the whole `writeResource` pipeline: every
status emission inside it goes through `writeHeader` or `writeBytes`, which
never overwrite an already-written status. -/
theorem status_writeResource_some (env : Env) (res : Resource) (w : Response) (r : Request)
    (s : Nat) (h : w.status = some s) : (writeResource env res w r).status = some s := by
  unfold writeResource
  split
  · exact status_writeHeader_some w 304 s h
  · split
    · exact status_writeHeader_some w 304 s h
    · set w4 := setHeader (setHeader (setHeader (addHeader w "Vary" "Accept") "Last-Modified"
        (env.fmtDate res.lastModified)) "ETag" res.etag) "Expires"
        (env.fmtDate (env.now + res.ttl)) with hw4
      have h4 : w4.status = some s := h
      cases hh : res.handler with
      | some hd => simpa [hh] using status_applyOps_some (hd r) w4 s h4
      | none =>
        cases hm : env.marshal res r with
        | error e => simpa [hh, hm] using status_writeError_some e w4 r s h4
        | ok p =>
          obtain ⟨contentType, b⟩ := p
          simp only [hh, hm]
          set w5 := setHeader w4 "Content-Type" contentType with hw5
          have h5 : w5.status = some s := h4
          set compression := env.getCompressionFormat b r with hcomp
          set w6 := if compression != "" then
              addHeader (setHeader w5 "Content-Encoding" compression) "Vary" "Accept-Encoding"
            else w5 with hw6
          have h6 : w6.status = some s := by
            rw [hw6]
            split
            · exact h5
            · exact h5
          split
          · exact status_writeBytes_some _ b s (status_writeHeader_some w6 201 s h6)
          · split
            · exact status_writeHeader_some w6 204 s h6
            · set w7 := if getHeader w6 "Content-Range" != "" then writeHeader w6 206
                else writeHeader w6 200 with hw7
              have h7 : w7.status = some s := by
                rw [hw7]
                split
                · exact status_writeHeader_some w6 206 s h6
                · exact status_writeHeader_some w6 200 s h6
              split
              · exact h7
              · exact status_writeBytes_some w7 b s h7

/-- Setting one header key leaves the values of any other key unchanged. -/
theorem headers_setHeader_ne (w : Response) (k v k2 : String) (h : k2 ≠ k) :
    (setHeader w k v).headers k2 = w.headers k2 := by
  simp [setHeader, h]

/-- Adding to one header key leaves the values of any other key unchanged. -/
theorem headers_addHeader_ne (w : Response) (k v k2 : String) (h : k2 ≠ k) :
    (addHeader w k v).headers k2 = w.headers k2 := by
  simp [addHeader, h]

/-- Writing the status does not change the headers. -/
theorem headers_writeHeader (w : Response) (c : Nat) :
    (writeHeader w c).headers = w.headers := by
  unfold writeHeader
  cases w.status <;> rfl

/-- Writing body bytes does not change the headers. -/
theorem headers_writeBytes (w : Response) (b : String) :
    (writeBytes w b).headers = w.headers := by
  unfold writeBytes
  cases w.status <;> rfl

/-- Writing an error response does not change the headers. -/
theorem headers_writeError (e : Err) (w : Response) (r : Request) :
    (writeError e w r).headers = w.headers := by
  unfold writeError
  simp [headers_writeHeader]

/-- Adding to a header key appends the value to that key's list. -/
theorem headers_addHeader_self (w : Response) (k v : String) :
    (addHeader w k v).headers k = w.headers k ++ [v] := by
  simp [addHeader]

/-- A value present under a header key is still present after an `Add` to
any key. -/
theorem mem_headers_addHeader (w : Response) (k v k2 x : String) (h : x ∈ w.headers k2) :
    x ∈ (addHeader w k v).headers k2 := by
  by_cases hk : k2 = k
  · subst hk
    simp only [addHeader, if_pos rfl]
    exact List.mem_append_left _ h
  · rwa [headers_addHeader_ne w k v k2 hk]

/-- The `writeResource` pipeline only touches the header keys `Vary`,
`Last-Modified`, `ETag`, `Expires`, `Content-Type` and `Content-Encoding`;
for a resource that does not take direct control of the response, every
other key keeps its values. -/
theorem headers_writeResource_of_ne (env : Env) (res : Resource) (w : Response) (r : Request)
    (k : String) (hh : res.handler = none)
    (h1 : k ≠ "Vary") (h2 : k ≠ "Last-Modified") (h3 : k ≠ "ETag") (h4 : k ≠ "Expires")
    (h5 : k ≠ "Content-Type") (h6 : k ≠ "Content-Encoding") :
    (writeResource env res w r).headers k = w.headers k := by
  unfold writeResource
  split
  · rw [headers_writeHeader]
  · split
    · rw [headers_writeHeader]
    · set w4 := setHeader (setHeader (setHeader (addHeader w "Vary" "Accept") "Last-Modified"
        (env.fmtDate res.lastModified)) "ETag" res.etag) "Expires"
        (env.fmtDate (env.now + res.ttl)) with hw4
      have e4 : w4.headers k = w.headers k := by
        rw [hw4, headers_setHeader_ne _ _ _ _ h4, headers_setHeader_ne _ _ _ _ h3,
          headers_setHeader_ne _ _ _ _ h2, headers_addHeader_ne _ _ _ _ h1]
      simp only [hh]
      cases hm : env.marshal res r with
      | error e => rw [headers_writeError, e4]
      | ok p =>
        obtain ⟨contentType, b⟩ := p
        simp only
        set w5 := setHeader w4 "Content-Type" contentType with hw5
        have e5 : w5.headers k = w.headers k := by
          rw [hw5, headers_setHeader_ne _ _ _ _ h5, e4]
        set compression := env.getCompressionFormat b r with hcomp
        set w6 := if compression != "" then
            addHeader (setHeader w5 "Content-Encoding" compression) "Vary" "Accept-Encoding"
          else w5 with hw6
        have e6 : w6.headers k = w.headers k := by
          rw [hw6]
          split
          · rw [headers_addHeader_ne _ _ _ _ h1, headers_setHeader_ne _ _ _ _ h6, e5]
          · exact e5
        split
        · rw [headers_writeBytes, headers_writeHeader, e6]
        · split
          · rw [headers_writeHeader, e6]
          · set w7 := if getHeader w6 "Content-Range" != "" then writeHeader w6 206
              else writeHeader w6 200 with hw7
            have e7 : w7.headers k = w.headers k := by
              rw [hw7]
              split
              · rw [headers_writeHeader, e6]
              · rw [headers_writeHeader, e6]
            split
            · exact e7
            · rw [headers_writeBytes, e7]

/-- A value present under the `Vary` key survives the `writeResource`
pipeline for a resource that does not take direct control of the response:
the pipeline only ever `Add`s to `Vary` and `Set`s other keys. -/
theorem mem_vary_writeResource (env : Env) (res : Resource) (w : Response) (r : Request)
    (x : String) (hh : res.handler = none) (h : x ∈ w.headers "Vary") :
    x ∈ (writeResource env res w r).headers "Vary" := by
  unfold writeResource
  split
  · rwa [headers_writeHeader]
  · split
    · rwa [headers_writeHeader]
    · set w4 := setHeader (setHeader (setHeader (addHeader w "Vary" "Accept") "Last-Modified"
        (env.fmtDate res.lastModified)) "ETag" res.etag) "Expires"
        (env.fmtDate (env.now + res.ttl)) with hw4
      have e4 : x ∈ w4.headers "Vary" := by
        rw [hw4, headers_setHeader_ne _ _ _ _ (by decide), headers_setHeader_ne _ _ _ _ (by decide),
          headers_setHeader_ne _ _ _ _ (by decide)]
        exact mem_headers_addHeader _ _ _ _ _ h
      simp only [hh]
      cases hm : env.marshal res r with
      | error e => rwa [headers_writeError]
      | ok p =>
        obtain ⟨contentType, b⟩ := p
        simp only
        set w5 := setHeader w4 "Content-Type" contentType with hw5
        have e5 : x ∈ w5.headers "Vary" := by
          rw [hw5, headers_setHeader_ne _ _ _ _ (by decide)]
          exact e4
        set compression := env.getCompressionFormat b r with hcomp
        set w6 := if compression != "" then
            addHeader (setHeader w5 "Content-Encoding" compression) "Vary" "Accept-Encoding"
          else w5 with hw6
        have e6 : x ∈ w6.headers "Vary" := by
          rw [hw6]
          split
          · exact mem_headers_addHeader _ _ _ _ _ (by
              rw [headers_setHeader_ne _ _ _ _ (by decide)]
              exact e5)
          · exact e5
        split
        · rw [headers_writeBytes, headers_writeHeader]
          exact e6
        · split
          · rw [headers_writeHeader]
            exact e6
          · set w7 := if getHeader w6 "Content-Range" != "" then writeHeader w6 206
              else writeHeader w6 200 with hw7
            have e7 : x ∈ w7.headers "Vary" := by
              rw [hw7]
              split
              · rw [headers_writeHeader]
                exact e6
              · rw [headers_writeHeader]
                exact e6
            split
            · exact e7
            · rw [headers_writeBytes]
              exact e7

/-- Writing the status does not record an error. -/
theorem wroteErr_writeHeader (w : Response) (c : Nat) :
    (writeHeader w c).wroteErr = w.wroteErr := by
  unfold writeHeader
  cases w.status <;> rfl

/-- Writing body bytes does not record an error. -/
theorem wroteErr_writeBytes (w : Response) (b : String) :
    (writeBytes w b).wroteErr = w.wroteErr := by
  unfold writeBytes
  cases w.status <;> rfl

/-- When the resource does not take direct control and marshaling succeeds,
the `writeResource` pipeline never invokes `ErrorHandler`. -/
theorem wroteErr_writeResource (env : Env) (res : Resource) (w : Response) (r : Request)
    (p : String × String) (hh : res.handler = none) (hm : env.marshal res r = .ok p) :
    (writeResource env res w r).wroteErr = w.wroteErr := by
  unfold writeResource
  split
  · rw [wroteErr_writeHeader]
  · split
    · rw [wroteErr_writeHeader]
    · set w4 := setHeader (setHeader (setHeader (addHeader w "Vary" "Accept") "Last-Modified"
        (env.fmtDate res.lastModified)) "ETag" res.etag) "Expires"
        (env.fmtDate (env.now + res.ttl)) with hw4
      have e4 : w4.wroteErr = w.wroteErr := rfl
      simp only [hh, hm]
      obtain ⟨contentType, b⟩ := p
      simp only
      set w6 := if env.getCompressionFormat b r != "" then
          addHeader (setHeader (setHeader w4 "Content-Type" contentType)
            "Content-Encoding" (env.getCompressionFormat b r)) "Vary" "Accept-Encoding"
        else setHeader w4 "Content-Type" contentType with hw6
      have e6 : w6.wroteErr = w.wroteErr := by
        rw [hw6]
        split
        · rfl
        · rfl
      split
      · rw [wroteErr_writeBytes, wroteErr_writeHeader]
        exact e6
      · split
        · rw [wroteErr_writeHeader]
          exact e6
        · set w7 := if getHeader w6 "Content-Range" != "" then writeHeader w6 206
            else writeHeader w6 200 with hw7
          have e7 : w7.wroteErr = w.wroteErr := by
            rw [hw7]
            split
            · rw [wroteErr_writeHeader]
              exact e6
            · rw [wroteErr_writeHeader]
              exact e6
          split
          · exact e7
          · rw [wroteErr_writeBytes]
            exact e7

/-- Writing the status does not change the body. -/
theorem body_writeHeader (w : Response) (c : Nat) :
    (writeHeader w c).body = w.body := by
  unfold writeHeader
  cases w.status <;> rfl

/-- On a fresh response, `writeHeader` records the given status. -/
theorem status_writeHeader_none (w : Response) (c : Nat) (h : w.status = none) :
    (writeHeader w c).status = some c := by
  unfold writeHeader
  rw [h]

/-! Concrete fixtures used by the witnesses and counterexamples. -/

/-- A fresh `ResponseWriter` state. -/
def emptyResponse : Response :=
  { status := none, headers := fun _ => [], body := "", wroteErr := none }

/-- A plain `GET` request with no conditional headers. -/
def baseReq : Request :=
  { method := "GET", vars := [], ifModifiedSince := none, ifNoneMatch := "",
    ifUnmodifiedSince := none, ifMatch := "", ifRange := "", ifRangeDate := none,
    range := "" }

/-- A concrete environment whose marshaler returns `"abc"` as `text/plain`,
with no compression and a `Range` parser that always fails. -/
def envA : Env :=
  { marshal := fun _ _ => .ok ("text/plain", "abc"),
    getCompressionFormat := fun _ _ => "",
    fmtDate := fun t => toString t,
    now := 0,
    parseRange := fun _ => .error { status := 400, msg := "bad range" },
    validate := fun _ _ => none,
    adjust := fun rg _ => .ok rg }

/-- A concrete resource with ETag `"v1"`. -/
def resA : Resource := { etag := "v1", lastModified := 100, ttl := 10, handler := none }

/-- A concrete resource whose ETag is the empty string. -/
def resEmptyTag : Resource := { etag := "", lastModified := 5, ttl := 0, handler := none }

/-- A request carrying `If-None-Match: v1`. -/
def reqINM : Request := { baseReq with ifNoneMatch := "v1" }

/-- A concrete `Patcher`/`Putter` operation returning `resA`. -/
def fWriteA : WriteFn := fun _ _ => .ok (some resA)

/-! Claim theorems. -/

/-- C1: for every resource written through the response pipeline
(`writeResource`) on GET or HEAD, if `If-Modified-Since` parses as a date
not earlier than the resource's LastModified, or some entry of the
semicolon-delimited `If-None-Match` header equals the resource's current
ETag, then the response is a 304 with no body, emitted before any header
emission or negotiation (the result does not depend on the marshaling,
compression or date-formatting environment, and `writeResource` itself
performs no range work). -/
theorem C1_writeResource_304_shortcircuit (env env2 : Env) (res : Resource) (w : Response)
    (r : Request) (hm : r.method = Get ∨ r.method = Head)
    (hc : (∃ t, r.ifModifiedSince = some t ∧ res.lastModified ≤ t) ∨
      res.etag ∈ goSplitSemicolon r.ifNoneMatch) :
    writeResource env res w r = writeHeader w 304 ∧
    (writeResource env res w r).body = w.body ∧
    (writeResource env res w r).headers = w.headers ∧
    (w.status = none → (writeResource env res w r).status = some 304) ∧
    writeResource env res w r = writeResource env2 res w r := by
  have key : ∀ env3 : Env, writeResource env3 res w r = writeHeader w 304 := by
    intro env3
    cases hi : imsMatch res r with
    | true =>
      unfold writeResource
      rw [hi]
      simp
    | false =>
      have hn : inmMatch res r = true := by
        cases hc with
        | inl hex =>
          obtain ⟨t, ht, hle⟩ := hex
          exfalso
          have hims : imsMatch res r = true := by
            unfold imsMatch
            rw [ht]
            simp [sub_nonneg, hle]
          rw [hims] at hi
          exact Bool.noConfusion hi
        | inr hmem =>
          unfold inmMatch
          rw [List.any_eq_true]
          exact ⟨res.etag, hmem, beq_self_eq_true res.etag⟩
      unfold writeResource
      rw [hi, hn]
      simp
  refine ⟨key env, ?_, ?_, ?_, ?_⟩
  · rw [key env, body_writeHeader]
  · rw [key env, headers_writeHeader]
  · intro h0
    rw [key env]
    exact status_writeHeader_none w 304 h0
  · rw [key env, key env2]

/-- C1 witness: a concrete GET with `If-None-Match: v1` against `resA`. -/
theorem C1_witness :
    resA.etag ∈ goSplitSemicolon reqINM.ifNoneMatch ∧
    writeResource envA resA emptyResponse reqINM = writeHeader emptyResponse 304 := by
  refine ⟨by decide, ?_⟩
  exact (C1_writeResource_304_shortcircuit envA envA resA emptyResponse reqINM
    (Or.inl rfl) (Or.inr (by decide))).1

/-- C2: `ValidateConditions` returns true iff `If-Unmodified-Since` parses
strictly earlier than the resource's LastModified, or `If-Match` is
non-empty and differs from the resource's ETag; when both headers are
absent it returns false, and equal inputs yield the same verdict. -/
theorem C2_validateConditions_spec (res : Resource) (r : Request) :
    (ValidateConditions res r = true ↔
      ((∃ d, r.ifUnmodifiedSince = some d ∧ d < res.lastModified) ∨
        (r.ifMatch ≠ "" ∧ r.ifMatch ≠ res.etag))) ∧
    (r.ifUnmodifiedSince = none → r.ifMatch = "" → ValidateConditions res r = false) ∧
    (∀ res2 r2, res2 = res → r2 = r → ValidateConditions res2 r2 = ValidateConditions res r) := by
  refine ⟨?_, ?_, ?_⟩
  · cases h : r.ifUnmodifiedSince with
    | none => simp [ValidateConditions, ifUnmodifiedSinceConflict, h]
    | some d => simp [ValidateConditions, ifUnmodifiedSinceConflict, h, sub_neg]
  · intro h1 h2
    simp [ValidateConditions, ifUnmodifiedSinceConflict, h1, h2]
  · intro res2 r2 e1 e2
    rw [e1, e2]

/-- C2 witness: a stale `If-Match: v2` against `resA` signals a conflict. -/
theorem C2_witness : ValidateConditions resA { baseReq with ifMatch := "v2" } = true :=
  (C2_validateConditions_spec resA { baseReq with ifMatch := "v2" }).1.mpr
    (Or.inr ⟨by decide, by decide⟩)

/-- C9: when a Patch or Put operation returns a resource and no error, the
adapter writes status 200 before invoking the shared `writeResource`
pipeline, and since a written status is never overwritten, the pipeline's
own 304/204/206 selection never determines the final status, which is 200. -/
theorem C9_patch_put_status_200 (env : Env) (f : WriteFn) (w : Response) (r : Request)
    (res : Resource) (h0 : w.status = none) (hf : f r.vars r = .ok (some res)) :
    patchFuncServeHTTP env f w r = writeResource env res (writeHeader w 200) r ∧
    (patchFuncServeHTTP env f w r).status = some 200 ∧
    putFuncServeHTTP env f w r = writeResource env res (writeHeader w 200) r ∧
    (putFuncServeHTTP env f w r).status = some 200 := by
  have e1 : patchFuncServeHTTP env f w r = writeResource env res (writeHeader w 200) r := by
    unfold patchFuncServeHTTP
    rw [hf]
  have e2 : putFuncServeHTTP env f w r = writeResource env res (writeHeader w 200) r := by
    unfold putFuncServeHTTP
    rw [hf]
  have h200 : (writeHeader w 200).status = some 200 := status_writeHeader_none w 200 h0
  refine ⟨e1, ?_, e2, ?_⟩
  · rw [e1]
    exact status_writeResource_some env res (writeHeader w 200) r 200 h200
  · rw [e2]
    exact status_writeResource_some env res (writeHeader w 200) r 200 h200

/-- C9 witness: a concrete PATCH/PUT operation returning `resA` on a fresh
response yields status 200. -/
theorem C9_witness :
    (patchFuncServeHTTP envA fWriteA emptyResponse baseReq).status = some 200 ∧
    (putFuncServeHTTP envA fWriteA emptyResponse baseReq).status = some 200 := by
  have h := C9_patch_put_status_200 envA fWriteA emptyResponse baseReq resA rfl rfl
  exact ⟨h.2.1, h.2.2.2⟩

/-- C10: for a resource whose ETag is the empty string, `writeResource`
answers 304 with no body on every request carrying no `If-None-Match`
header, because splitting the absent (empty) header on `";"` yields the
single entry `""`, which equals the empty ETag. -/
theorem C10_empty_etag_304 (env : Env) (res : Resource) (w : Response) (r : Request)
    (he : res.etag = "") (hn : r.ifNoneMatch = "") :
    writeResource env res w r = writeHeader w 304 ∧
    (writeResource env res w r).body = w.body ∧
    (w.status = none → (writeResource env res w r).status = some 304) := by
  have hi : inmMatch res r = true := by
    unfold inmMatch
    rw [hn, he]
    decide
  have key : writeResource env res w r = writeHeader w 304 := by
    unfold writeResource
    rw [hi]
    split
    · rfl
    · simp
  refine ⟨key, ?_, ?_⟩
  · rw [key, body_writeHeader]
  · intro h0
    rw [key]
    exact status_writeHeader_none w 304 h0

/-- C10 witness: the concrete empty-ETag resource and a request without
`If-None-Match`. -/
theorem C10_witness :
    resEmptyTag.etag = "" ∧ baseReq.ifNoneMatch = "" ∧
    writeResource envA resEmptyTag emptyResponse baseReq = writeHeader emptyResponse 304 :=
  ⟨rfl, rfl, (C10_empty_etag_304 envA resEmptyTag emptyResponse baseReq rfl rfl).1⟩

/-- Getting the header key just set yields the set value. -/
theorem getHeader_setHeader_self (w : Response) (k v : String) :
    getHeader (setHeader w k v) k = v := by
  simp [getHeader, setHeader]

/-- Getting a header key different from the one just set is unchanged. -/
theorem getHeader_setHeader_ne (w : Response) (k v k2 : String) (h : k2 ≠ k) :
    getHeader (setHeader w k v) k2 = getHeader w k2 := by
  unfold getHeader
  rw [headers_setHeader_ne w k v k2 h]

/-- On a fresh response, `writeError` records the error's status. -/
theorem status_writeError_none (e : Err) (w : Response) (r : Request) (h : w.status = none) :
    (writeError e w r).status = some e.status := by
  unfold writeError
  simp [status_writeHeader_none w e.status h]

/-- Spec-side capability predicate: the methods an endpoint implements
(HEAD and GET through `Getter`, and so on). -/
def implementsMethod (e : Endpoint) (m : String) : Bool :=
  ((m == Head || m == Get) && e.getter.isSome) ||
  (m == Patch && e.patcher.isSome) ||
  (m == Put && e.putter.isSome) ||
  (m == Post && e.poster.isSome) ||
  (m == Delete && e.deleter.isSome)

/-- `AllowedMethods` lists exactly the implemented methods, in the fixed
canonical order HEAD, GET, PATCH, PUT, POST, DELETE. -/
theorem allowedMethods_eq_filter (e : Endpoint) :
    AllowedMethods e = supportedMethods.filter (implementsMethod e) := by
  obtain ⟨g, pa, pu, po, d⟩ := e
  cases g <;> cases pa <;> cases pu <;> cases po <;> cases d <;> rfl

/-- C5: an OPTIONS request is answered with status 204, an `Allow` header
listing exactly the implemented methods in the fixed canonical order
HEAD, GET, PATCH, PUT, POST, DELETE, and a `Content-Type` listing the
configured representation alternatives; no Get/Put/Post/Patch/Delete
operation is invoked (the response depends on the endpoint only through
its `Allow` list, hence is stable across repeated calls). -/
theorem C5_options_response (env : Env) (alternatives : List String) (e : Endpoint)
    (w : Response) (r : Request) (hm : r.method = Options) (h0 : w.status = none) :
    (endpointHandlerServeHTTP env alternatives e w r).status = some 204 ∧
    getHeader (endpointHandlerServeHTTP env alternatives e w r) "Allow"
      = String.intercalate ", " (AllowedMethods e) ∧
    getHeader (endpointHandlerServeHTTP env alternatives e w r) "Content-Type"
      = String.intercalate ";" alternatives ∧
    AllowedMethods e = supportedMethods.filter (implementsMethod e) ∧
    (∀ e2 : Endpoint, AllowedMethods e2 = AllowedMethods e →
      endpointHandlerServeHTTP env alternatives e2 w r
        = endpointHandlerServeHTTP env alternatives e w r) := by
  have hopts : ∀ e3 : Endpoint, endpointHandlerServeHTTP env alternatives e3 w r =
      writeHeader (setHeader (setHeader w "Allow"
        (String.intercalate ", " (AllowedMethods e3))) "Content-Type"
        (String.intercalate ";" alternatives)) 204 := by
    intro e3
    have hgm : getMethodHandler e3 r.method = some .optionsH := by
      rw [hm]
      rfl
    unfold endpointHandlerServeHTTP
    rw [hgm]
    show optionsHandler alternatives e3 w r = _
    unfold optionsHandler
    rw [hm]
    simp
  refine ⟨?_, ?_, ?_, allowedMethods_eq_filter e, ?_⟩
  · rw [hopts e]
    exact status_writeHeader_none _ 204 h0
  · rw [hopts e]
    unfold getHeader
    rw [headers_writeHeader]
    rw [← getHeader]
    rw [getHeader_setHeader_ne _ _ _ _ (by decide), getHeader_setHeader_self]
  · rw [hopts e]
    unfold getHeader
    rw [headers_writeHeader]
    rw [← getHeader]
    rw [getHeader_setHeader_self]
  · intro e2 hAM
    rw [hopts e2, hopts e, hAM]

/-- A concrete `Getter` operation returning `resA` with no `Ranger`
capability. -/
def fGetA : GetFn := fun _ _ => .ok (some (resA, none))

/-- A concrete endpoint implementing only `Getter`. -/
def eA : Endpoint :=
  { getter := some fGetA, patcher := none, putter := none, poster := none, deleter := none }

/-- A concrete endpoint implementing nothing. -/
def eEmpty : Endpoint :=
  { getter := none, patcher := none, putter := none, poster := none, deleter := none }

/-- A concrete OPTIONS request. -/
def reqOptions : Request := { baseReq with method := "OPTIONS" }

/-- C5 witness: OPTIONS against the Getter-only endpoint answers 204 with
`Allow: HEAD, GET`. -/
theorem C5_witness :
    (endpointHandlerServeHTTP envA ["application/json"] eA emptyResponse reqOptions).status
      = some 204 ∧
    getHeader (endpointHandlerServeHTTP envA ["application/json"] eA emptyResponse reqOptions)
      "Allow" = "HEAD, GET" := by
  have h := C5_options_response envA ["application/json"] eA emptyResponse reqOptions rfl rfl
  refine ⟨h.1, ?_⟩
  rw [h.2.1]
  rfl

/-- C6: when the request's method resolves to no handler, the endpoint
answers 405 carrying the computed `Allow` list if it supports at least one
method, and 404 if it supports none. -/
theorem C6_unsupported_method (env : Env) (alternatives : List String) (e : Endpoint)
    (w : Response) (r : Request) (hnone : getMethodHandler e r.method = none)
    (h0 : w.status = none) :
    ((AllowedMethods e).length > 0 →
      (endpointHandlerServeHTTP env alternatives e w r).status = some 405 ∧
      getHeader (endpointHandlerServeHTTP env alternatives e w r) "Allow"
        = String.intercalate ", " (AllowedMethods e)) ∧
    ((AllowedMethods e).length = 0 →
      (endpointHandlerServeHTTP env alternatives e w r).status = some 404) := by
  constructor
  · intro hlen
    have key : endpointHandlerServeHTTP env alternatives e w r =
        MethodNotAllowed r.method (AllowedMethods e) w r := by
      unfold endpointHandlerServeHTTP
      rw [hnone]
      simp [hlen]
    constructor
    · rw [key]
      unfold MethodNotAllowed
      exact status_writeError_none _ _ _ h0
    · rw [key]
      unfold MethodNotAllowed getHeader
      rw [headers_writeError, ← getHeader, getHeader_setHeader_self]
  · intro hlen
    have key : endpointHandlerServeHTTP env alternatives e w r = NotFound w r := by
      unfold endpointHandlerServeHTTP
      rw [hnone]
      simp [hlen]
    rw [key]
    unfold NotFound
    exact status_writeError_none _ _ _ h0

/-- A concrete DELETE request. -/
def reqDelete : Request := { baseReq with method := "DELETE" }

/-- C6 witness: DELETE against the Getter-only endpoint answers 405 with
`Allow: HEAD, GET`; GET against the empty endpoint answers 404. -/
theorem C6_witness :
    ((endpointHandlerServeHTTP envA [] eA emptyResponse reqDelete).status = some 405 ∧
      getHeader (endpointHandlerServeHTTP envA [] eA emptyResponse reqDelete) "Allow"
        = "HEAD, GET") ∧
    (endpointHandlerServeHTTP envA [] eEmpty emptyResponse baseReq).status = some 404 := by
  have h1 := (C6_unsupported_method envA [] eA emptyResponse reqDelete rfl rfl).1 (by decide)
  have h2 := (C6_unsupported_method envA [] eEmpty emptyResponse baseReq rfl rfl).2 (by decide)
  refine ⟨⟨h1.1, ?_⟩, h2⟩
  rw [h1.2]
  rfl

/-- Path reduction: a `Getter` result implementing `Ranger` whose `Range`
header parses, validates, and passes the `If-Range` precondition reaches
`serveRange` with the `Accept-Ranges` header set. -/
theorem getFunc_success_path (env : Env) (f : GetFn) (w : Response) (r : Request)
    (res : Resource) (ranger : RangerData) (rg : Range)
    (hf : f r.vars r = .ok (some (res, some ranger)))
    (hp : env.parseRange r.range = .ok rg)
    (hv : env.validate rg ranger = none)
    (hir : ifRangeFails res r = false) :
    getFuncServeHTTP env f w r = serveRange env ranger rg
      (setHeader w "Accept-Ranges" (String.intercalate ", " ranger.units)) r := by
  unfold getFuncServeHTTP
  rw [hf]
  dsimp only
  rw [hp]
  dsimp only
  rw [hv]
  dsimp only
  rw [hir]
  simp

/-- Path reduction: a parse failure of the `Range` header falls back to the
full `writeResource` path. -/
theorem getFunc_parse_fallback (env : Env) (f : GetFn) (w : Response) (r : Request)
    (res : Resource) (ranger : RangerData) (e : Err)
    (hf : f r.vars r = .ok (some (res, some ranger)))
    (hp : env.parseRange r.range = .error e) :
    getFuncServeHTTP env f w r = writeResource env res
      (setHeader w "Accept-Ranges" (String.intercalate ", " ranger.units)) r := by
  unfold getFuncServeHTTP
  rw [hf]
  dsimp only
  rw [hp]

/-- Path reduction: a validation failure of the parsed range falls back to
the full `writeResource` path. -/
theorem getFunc_validate_fallback (env : Env) (f : GetFn) (w : Response) (r : Request)
    (res : Resource) (ranger : RangerData) (rg : Range) (e : Err)
    (hf : f r.vars r = .ok (some (res, some ranger)))
    (hp : env.parseRange r.range = .ok rg)
    (hv : env.validate rg ranger = some e) :
    getFuncServeHTTP env f w r = writeResource env res
      (setHeader w "Accept-Ranges" (String.intercalate ", " ranger.units)) r := by
  unfold getFuncServeHTTP
  rw [hf]
  dsimp only
  rw [hp]
  dsimp only
  rw [hv]

/-- Path reduction: an `If-Range` precondition failure falls back to the
full `writeResource` path. -/
theorem getFunc_ifrange_fallback (env : Env) (f : GetFn) (w : Response) (r : Request)
    (res : Resource) (ranger : RangerData) (rg : Range)
    (hf : f r.vars r = .ok (some (res, some ranger)))
    (hp : env.parseRange r.range = .ok rg)
    (hv : env.validate rg ranger = none)
    (hir : ifRangeFails res r = true) :
    getFuncServeHTTP env f w r = writeResource env res
      (setHeader w "Accept-Ranges" (String.intercalate ", " ranger.units)) r := by
  unfold getFuncServeHTTP
  rw [hf]
  dsimp only
  rw [hp]
  dsimp only
  rw [hv]
  dsimp only
  rw [hir]
  simp

/-- Path reduction: an error from the adjust step is propagated through
`writeError`. -/
theorem serveRange_adjust_error (env : Env) (ranger : RangerData) (rg : Range)
    (w : Response) (r : Request) (e : Err) (ha : env.adjust rg ranger = .error e) :
    serveRange env ranger rg w r = writeError e w r := by
  unfold serveRange
  rw [ha]

/-- Path reduction: a successful adjust and `Range()` call writes the
partial resource, with `Vary: Range` added and `Content-Range` set exactly
when the served span is not the entire resource. -/
theorem serveRange_success (env : Env) (ranger : RangerData) (rg : Range)
    (w : Response) (r : Request) (rg2 : Range) (cr : ContentRange) (part : Resource)
    (ha : env.adjust rg ranger = .ok rg2)
    (hr : ranger.rangeFn rg2 = .ok (cr, part)) :
    serveRange env ranger rg w r = writeResource env part
      (if cr.From != 0 || cr.To != u64pred cr.Total then
        setHeader (addHeader w "Vary" "Range") "Content-Range" (crString cr)
      else addHeader w "Vary" "Range") r := by
  unfold serveRange
  rw [ha]
  dsimp only
  rw [hr]

/-- The rendered `Content-Range` value is never the empty string. -/
theorem crString_ne_empty (cr : ContentRange) : crString cr ≠ "" := by
  intro h
  have hd : (crString cr).data = [] := by
    rw [h]
  unfold crString at hd
  simp [String.data_append] at hd

/-- Every value the `writeResource` pipeline itself contributes under the
`Vary` key is `Accept` or `Accept-Encoding`: any other value found there
was already present before the call. -/
theorem vary_mem_writeResource_inv (env : Env) (res : Resource) (w : Response) (r : Request)
    (x : String) (hh : res.handler = none)
    (hx : x ∈ (writeResource env res w r).headers "Vary") :
    x ∈ w.headers "Vary" ∨ x = "Accept" ∨ x = "Accept-Encoding" := by
  unfold writeResource at hx
  split at hx
  · rw [headers_writeHeader] at hx
    exact Or.inl hx
  · split at hx
    · rw [headers_writeHeader] at hx
      exact Or.inl hx
    · rw [hh] at hx
      set w4 := setHeader (setHeader (setHeader (addHeader w "Vary" "Accept") "Last-Modified"
        (env.fmtDate res.lastModified)) "ETag" res.etag) "Expires"
        (env.fmtDate (env.now + res.ttl)) with hw4
      have e4 : w4.headers "Vary" = w.headers "Vary" ++ ["Accept"] := by
        rw [hw4, headers_setHeader_ne _ _ _ _ (by decide), headers_setHeader_ne _ _ _ _ (by decide),
          headers_setHeader_ne _ _ _ _ (by decide)]
        simp [addHeader]
      have decomp : ∀ hy : x ∈ w.headers "Vary" ++ ["Accept"],
          x ∈ w.headers "Vary" ∨ x = "Accept" ∨ x = "Accept-Encoding" := by
        intro hy
        rcases List.mem_append.mp hy with h1 | h2
        · exact Or.inl h1
        · exact Or.inr (Or.inl (List.mem_singleton.mp h2))
      cases hm : env.marshal res r with
      | error e =>
        rw [hm] at hx
        rw [headers_writeError] at hx
        rw [e4] at hx
        exact decomp hx
      | ok p =>
        obtain ⟨contentType, b⟩ := p
        rw [hm] at hx
        dsimp only at hx
        set w5 := setHeader w4 "Content-Type" contentType with hw5
        have e5 : w5.headers "Vary" = w.headers "Vary" ++ ["Accept"] := by
          rw [hw5, headers_setHeader_ne _ _ _ _ (by decide), e4]
        set w6 := if env.getCompressionFormat b r != "" then
            addHeader (setHeader w5 "Content-Encoding" (env.getCompressionFormat b r))
              "Vary" "Accept-Encoding"
          else w5 with hw6
        have e6 : ∀ hy : x ∈ w6.headers "Vary",
            x ∈ w.headers "Vary" ∨ x = "Accept" ∨ x = "Accept-Encoding" := by
          intro hy
          rw [hw6] at hy
          by_cases hc : (env.getCompressionFormat b r != "") = true
          · rw [if_pos hc] at hy
            rw [headers_addHeader_self, headers_setHeader_ne _ _ _ _ (by decide), e5] at hy
            rcases List.mem_append.mp hy with h1 | h2
            · exact decomp h1
            · exact Or.inr (Or.inr (List.mem_singleton.mp h2))
          · rw [if_neg hc] at hy
            rw [e5] at hy
            exact decomp hy
        split at hx
        · rw [headers_writeBytes, headers_writeHeader] at hx
          exact e6 hx
        · split at hx
          · rw [headers_writeHeader] at hx
            exact e6 hx
          · set w7 := if getHeader w6 "Content-Range" != "" then writeHeader w6 206
              else writeHeader w6 200 with hw7
            have e7 : ∀ hy : x ∈ w7.headers "Vary",
                x ∈ w.headers "Vary" ∨ x = "Accept" ∨ x = "Accept-Encoding" := by
              intro hy
              rw [hw7] at hy
              by_cases hc : (getHeader w6 "Content-Range" != "") = true
              · rw [if_pos hc, headers_writeHeader] at hy
                exact e6 hy
              · rw [if_neg hc, headers_writeHeader] at hy
                exact e6 hy
            split at hx
            · exact e7 hx
            · rw [headers_writeBytes] at hx
              exact e7 hx

/-- Writing an error records it. -/
theorem wroteErr_writeError (e : Err) (w : Response) (r : Request) :
    (writeError e w r).wroteErr = some e := rfl

/-! Range fixtures. -/

/-- A concrete parsed range. -/
def rgA : Range := { Unit := "bytes", From := 2, To := 4 }

/-- A concrete content range: units 2 through 4 of 10. -/
def crA : ContentRange := { Unit := "bytes", From := 2, To := 4, Total := 10 }

/-- A concrete partial resource returned by `Range()`. -/
def resPart : Resource := { etag := "p1", lastModified := 0, ttl := 0, handler := none }

/-- A concrete `Ranger` capability over 10 byte units. -/
def rangerA : RangerData :=
  { units := ["bytes"], count := 10, rangeFn := fun _ => .ok (crA, resPart) }

/-- A concrete `Getter` operation returning `resA` with the `Ranger`
capability. -/
def fGetR : GetFn := fun _ _ => .ok (some (resA, some rangerA))

/-- A concrete GET request with a `Range` header. -/
def reqRange : Request := { baseReq with range := "bytes=2-4" }

/-- An environment whose `Range` parser succeeds with `rgA` (validate and
adjust succeed as in `envA`). -/
def envC3 : Env := { envA with parseRange := fun _ => .ok rgA }

/-- An environment whose `Range` validation fails. -/
def envV : Env :=
  { envA with
    parseRange := fun _ => .ok rgA
    validate := fun _ _ => some { status := 416, msg := "invalid range" } }

/-- An environment whose adjust step fails. -/
def envAdj : Env :=
  { envA with
    parseRange := fun _ => .ok rgA
    adjust := fun _ _ => .error { status := 416, msg := "unsatisfiable" } }

/-- A concrete resource whose LastModified is Go's zero time. -/
def resZero : Resource :=
  { etag := "v1", lastModified := goZeroTime, ttl := 0, handler := none }

/-- A concrete `Getter` operation returning `resZero` with the `Ranger`
capability. -/
def fGetZero : GetFn := fun _ _ => .ok (some (resZero, some rangerA))

/-- A concrete ranged GET whose `If-Range` value parses neither as a date
nor matches the ETag. -/
def reqGarb : Request :=
  { baseReq with range := "bytes=2-4", ifRange := "garbage", ifRangeDate := none }

/-- C4: on the GET range path, a parse failure of the `Range` header or a
failed validation silently produces the full (non-partial) response with no
error written to the client, whereas an error from the adjust step is
propagated to the client as an error response. -/
theorem C4_range_fallback_asymmetry (env : Env) (f : GetFn) (w : Response) (r : Request)
    (res : Resource) (ranger : RangerData)
    (hf : f r.vars r = .ok (some (res, some ranger))) :
    (∀ e, env.parseRange r.range = .error e →
      getFuncServeHTTP env f w r = writeResource env res
        (setHeader w "Accept-Ranges" (String.intercalate ", " ranger.units)) r ∧
      (res.handler = none → ∀ p, env.marshal res r = .ok p →
        (getFuncServeHTTP env f w r).wroteErr = w.wroteErr)) ∧
    (∀ rg e, env.parseRange r.range = .ok rg → env.validate rg ranger = some e →
      getFuncServeHTTP env f w r = writeResource env res
        (setHeader w "Accept-Ranges" (String.intercalate ", " ranger.units)) r ∧
      (res.handler = none → ∀ p, env.marshal res r = .ok p →
        (getFuncServeHTTP env f w r).wroteErr = w.wroteErr)) ∧
    (∀ rg e, env.parseRange r.range = .ok rg → env.validate rg ranger = none →
      ifRangeFails res r = false → env.adjust rg ranger = .error e →
      getFuncServeHTTP env f w r = writeError e
        (setHeader w "Accept-Ranges" (String.intercalate ", " ranger.units)) r ∧
      (getFuncServeHTTP env f w r).wroteErr = some e) := by
  refine ⟨?_, ?_, ?_⟩
  · intro e hp
    have key := getFunc_parse_fallback env f w r res ranger e hf hp
    refine ⟨key, ?_⟩
    intro hh p hmar
    rw [key]
    exact wroteErr_writeResource env res _ r p hh hmar
  · intro rg e hp hv
    have key := getFunc_validate_fallback env f w r res ranger rg e hf hp hv
    refine ⟨key, ?_⟩
    intro hh p hmar
    rw [key]
    exact wroteErr_writeResource env res _ r p hh hmar
  · intro rg e hp hv hir ha
    have key : getFuncServeHTTP env f w r = writeError e
        (setHeader w "Accept-Ranges" (String.intercalate ", " ranger.units)) r := by
      rw [getFunc_success_path env f w r res ranger rg hf hp hv hir]
      exact serveRange_adjust_error env ranger rg _ r e ha
    refine ⟨key, ?_⟩
    rw [key]
    exact wroteErr_writeError e _ r

/-- C4 witness: concrete runs of the three branches: parse failure and
validate failure write no error; an adjust failure records the 416 error. -/
theorem C4_witness :
    (getFuncServeHTTP envA fGetR emptyResponse reqRange).wroteErr = none ∧
    (getFuncServeHTTP envV fGetR emptyResponse reqRange).wroteErr = none ∧
    (getFuncServeHTTP envAdj fGetR emptyResponse reqRange).wroteErr
      = some { status := 416, msg := "unsatisfiable" } := by
  have h1 := ((C4_range_fallback_asymmetry envA fGetR emptyResponse reqRange resA rangerA
    rfl).1 { status := 400, msg := "bad range" } rfl).2 rfl ("text/plain", "abc") rfl
  have h2 := ((C4_range_fallback_asymmetry envV fGetR emptyResponse reqRange resA rangerA
    rfl).2.1 rgA { status := 416, msg := "invalid range" } rfl rfl).2 rfl
    ("text/plain", "abc") rfl
  have h3 := ((C4_range_fallback_asymmetry envAdj fGetR emptyResponse reqRange resA rangerA
    rfl).2.2 rgA { status := 416, msg := "unsatisfiable" } rfl rfl rfl rfl).2
  exact ⟨h1.trans rfl, h2.trans rfl, h3⟩

/-- C7 counterexample: the claim says the range is honored only when the
`If-Range` value parses as a date equal to LastModified or equals the ETag.
With a resource whose LastModified is Go's zero time and an `If-Range`
value that neither parses as a date nor equals the ETag, the code
nevertheless honors the range (`time.Parse`'s failure yields the zero
time, which compares equal): the response is a 206 with a `Content-Range`
header, not the full resource. -/
theorem C7_counterexample :
    reqGarb.ifRange ≠ "" ∧ reqGarb.ifRangeDate = none ∧ reqGarb.ifRange ≠ resZero.etag ∧
    getHeader (getFuncServeHTTP envC3 fGetZero emptyResponse reqGarb) "Content-Range"
      = "bytes 2-4/10" ∧
    (getFuncServeHTTP envC3 fGetZero emptyResponse reqGarb).status = some 206 := by
  refine ⟨by decide, rfl, by decide, by decide, by decide⟩

/-- C7 (amended): on GET with a valid, validated Range header and a
non-empty `If-Range` header, the range is honored iff the `If-Range` value
parsed as a date — with a parse failure yielding Go's zero time — equals
the resource's LastModified exactly, or the raw value equals the
resource's current ETag exactly; otherwise the Range header is ignored and
the full resource is returned. -/
theorem C7_if_range_amended (env : Env) (f : GetFn) (w : Response) (r : Request)
    (res : Resource) (ranger : RangerData) (rg : Range)
    (hf : f r.vars r = .ok (some (res, some ranger)))
    (hp : env.parseRange r.range = .ok rg)
    (hv : env.validate rg ranger = none)
    (hr : r.ifRange ≠ "") :
    getFuncServeHTTP env f w r =
      if (r.ifRangeDate.getD goZeroTime == res.lastModified) || (r.ifRange == res.etag) then
        serveRange env ranger rg
          (setHeader w "Accept-Ranges" (String.intercalate ", " ranger.units)) r
      else
        writeResource env res
          (setHeader w "Accept-Ranges" (String.intercalate ", " ranger.units)) r := by
  by_cases hab : ((r.ifRangeDate.getD goZeroTime == res.lastModified)
      || (r.ifRange == res.etag)) = true
  · rw [if_pos hab]
    apply getFunc_success_path env f w r res ranger rg hf hp hv
    unfold ifRangeFails
    rcases Bool.or_eq_true_iff.mp hab with ha | hb
    · simp [ha]
    · simp [hb, bne]
  · rw [if_neg hab]
    apply getFunc_ifrange_fallback env f w r res ranger rg hf hp hv
    unfold ifRangeFails
    have hne : (r.ifRange != "") = true := bne_iff_ne.mpr hr
    simp only [Bool.or_eq_true_iff, not_or, Bool.not_eq_true] at hab
    simp [hne, hab.1, hab.2, bne, hr]

/-- C7 witness for the amended theorem: the zero-time resource with an
unparseable `If-Range` takes the range path. -/
theorem C7_witness :
    getFuncServeHTTP envC3 fGetZero emptyResponse reqGarb = serveRange envC3 rangerA rgA
      (setHeader emptyResponse "Accept-Ranges" (String.intercalate ", " rangerA.units))
      reqGarb := by
  have h := C7_if_range_amended envC3 fGetZero emptyResponse reqGarb resZero rangerA rgA
    rfl rfl rfl (by decide)
  rw [if_pos (by decide)] at h
  exact h

/-- C8 counterexample: the claim says `Vary: Range` is present whenever
range handling was attempted, including fallback.  In a concrete run where
range handling is attempted (the resource implements `Ranger` and a
`Range` header is present) but the header fails to parse, the response
carries no `Vary: Range`. -/
theorem C8_counterexample :
    reqRange.range = "bytes=2-4" ∧
    fGetR reqRange.vars reqRange = .ok (some (resA, some rangerA)) ∧
    "Range" ∉ (getFuncServeHTTP envA fGetR emptyResponse reqRange).headers "Vary" := by
  refine ⟨rfl, rfl, by decide⟩

/-- A concrete ranged GET whose `If-Range` value neither parses as a date
nor matches `resA`'s ETag, so the `If-Range` precondition fails. -/
def reqStale : Request :=
  { baseReq with range := "bytes=2-4", ifRange := "stale", ifRangeDate := none }

/-- C8 (amended): `Vary: Range` is added exactly on the successful range
path — after adjust and `Range()` succeed — and on none of the fallback
paths: a response that fell back because of a parse failure, a validation
failure, or an `If-Range` precondition failure carries no `Vary: Range`
(provided the resource does not take direct control of the response). -/
theorem C8_vary_range_amended (env : Env) (f : GetFn) (w : Response) (r : Request)
    (res : Resource) (ranger : RangerData) (rg : Range) :
    (∀ rg2 cr part, f r.vars r = .ok (some (res, some ranger)) →
      env.parseRange r.range = .ok rg → env.validate rg ranger = none →
      ifRangeFails res r = false → env.adjust rg ranger = .ok rg2 →
      ranger.rangeFn rg2 = .ok (cr, part) → part.handler = none →
      "Range" ∈ (getFuncServeHTTP env f w r).headers "Vary") ∧
    (∀ e, f r.vars r = .ok (some (res, some ranger)) →
      env.parseRange r.range = .error e → res.handler = none →
      "Range" ∉ w.headers "Vary" →
      "Range" ∉ (getFuncServeHTTP env f w r).headers "Vary") ∧
    (∀ e, f r.vars r = .ok (some (res, some ranger)) →
      env.parseRange r.range = .ok rg → env.validate rg ranger = some e →
      res.handler = none → "Range" ∉ w.headers "Vary" →
      "Range" ∉ (getFuncServeHTTP env f w r).headers "Vary") ∧
    (f r.vars r = .ok (some (res, some ranger)) →
      env.parseRange r.range = .ok rg → env.validate rg ranger = none →
      ifRangeFails res r = true →
      res.handler = none → "Range" ∉ w.headers "Vary" →
      "Range" ∉ (getFuncServeHTTP env f w r).headers "Vary") := by
  have core : res.handler = none → "Range" ∉ w.headers "Vary" →
      "Range" ∉ (writeResource env res
        (setHeader w "Accept-Ranges" (String.intercalate ", " ranger.units)) r).headers
        "Vary" := by
    intro hh hw hmem
    rcases vary_mem_writeResource_inv env res _ r "Range" hh hmem with h1 | h2 | h3
    · rw [headers_setHeader_ne _ _ _ _ (by decide)] at h1
      exact hw h1
    · exact absurd h2 (by decide)
    · exact absurd h3 (by decide)
  refine ⟨?_, ?_, ?_, ?_⟩
  · intro rg2 cr part hf hp hv hir ha hrg hpart
    rw [getFunc_success_path env f w r res ranger rg hf hp hv hir,
      serveRange_success env ranger rg _ r rg2 cr part ha hrg]
    apply mem_vary_writeResource env part _ r "Range" hpart
    split
    · rw [headers_setHeader_ne _ _ _ _ (by decide), headers_addHeader_self]
      exact List.mem_append.mpr (Or.inr (List.mem_singleton_self "Range"))
    · rw [headers_addHeader_self]
      exact List.mem_append.mpr (Or.inr (List.mem_singleton_self "Range"))
  · intro e hf hp hh hw
    rw [getFunc_parse_fallback env f w r res ranger e hf hp]
    exact core hh hw
  · intro e hf hp hv hh hw
    rw [getFunc_validate_fallback env f w r res ranger rg e hf hp hv]
    exact core hh hw
  · intro hf hp hv hir hh hw
    rw [getFunc_ifrange_fallback env f w r res ranger rg hf hp hv hir]
    exact core hh hw

/-- C8 witness for the amended theorem: a successful ranged GET carries
`Vary: Range`; the parse-failure, validation-failure and If-Range-failure
fallbacks do not. -/
theorem C8_witness :
    "Range" ∈ (getFuncServeHTTP envC3 fGetR emptyResponse reqRange).headers "Vary" ∧
    "Range" ∉ (getFuncServeHTTP envA fGetR emptyResponse reqRange).headers "Vary" ∧
    "Range" ∉ (getFuncServeHTTP envV fGetR emptyResponse reqRange).headers "Vary" ∧
    "Range" ∉ (getFuncServeHTTP envC3 fGetR emptyResponse reqStale).headers "Vary" := by
  refine ⟨?_, ?_, ?_, ?_⟩
  · exact (C8_vary_range_amended envC3 fGetR emptyResponse reqRange resA rangerA rgA).1
      rgA crA resPart rfl rfl rfl rfl rfl rfl rfl
  · exact (C8_vary_range_amended envA fGetR emptyResponse reqRange resA rangerA rgA).2.1
      { status := 400, msg := "bad range" } rfl rfl rfl (by decide)
  · exact (C8_vary_range_amended envV fGetR emptyResponse reqRange resA rangerA rgA).2.2.1
      { status := 416, msg := "invalid range" } rfl rfl rfl rfl (by decide)
  · exact (C8_vary_range_amended envC3 fGetR emptyResponse reqStale resA rangerA rgA).2.2.2
      rfl rfl rfl (by decide) rfl (by decide)

/-- C3: on the GET range path, the `Content-Range` header is set iff the
served span is not the entire resource (`From != 0` or `To != Total-1`,
with Go's `uint64` wraparound on `Total-1`); and inside `writeResource`,
the final status of a representation-bearing (no 304, not a direct-writer,
marshaling succeeds), non-POST, non-empty-body response is 206 if a
`Content-Range` header was set and 200 otherwise. -/
theorem C3_content_range_and_status (env : Env) :
    (∀ (f : GetFn) (w : Response) (r : Request) (res part : Resource) (ranger : RangerData)
      (rg rg2 : Range) (cr : ContentRange),
      f r.vars r = .ok (some (res, some ranger)) →
      env.parseRange r.range = .ok rg →
      env.validate rg ranger = none →
      ifRangeFails res r = false →
      env.adjust rg ranger = .ok rg2 →
      ranger.rangeFn rg2 = .ok (cr, part) →
      part.handler = none →
      w.headers "Content-Range" = [] →
      (getHeader (getFuncServeHTTP env f w r) "Content-Range" ≠ "" ↔
        (cr.From ≠ 0 ∨ cr.To ≠ u64pred cr.Total))) ∧
    (∀ (res : Resource) (w : Response) (r : Request) (ct b : String),
      imsMatch res r = false → inmMatch res r = false → res.handler = none →
      env.marshal res r = .ok (ct, b) → b.length ≠ 0 →
      (strToUpper r.method == Post) = false → w.status = none →
      (writeResource env res w r).status
        = some (if getHeader w "Content-Range" != "" then 206 else 200)) := by
  constructor
  · intro f w r res part ranger rg rg2 cr hf hp hv hir ha hrg hpart hw
    rw [getFunc_success_path env f w r res ranger rg hf hp hv hir,
      serveRange_success env ranger rg _ r rg2 cr part ha hrg]
    set w1 := setHeader w "Accept-Ranges" (String.intercalate ", " ranger.units) with hw1
    set wv := addHeader w1 "Vary" "Range" with hwv
    have hwv0 : wv.headers "Content-Range" = [] := by
      rw [hwv, headers_addHeader_ne _ _ _ _ (by decide), hw1,
        headers_setHeader_ne _ _ _ _ (by decide), hw]
    by_cases hcond : (cr.From != 0 || cr.To != u64pred cr.Total) = true
    · rw [if_pos hcond]
      have hres : (writeResource env part (setHeader wv "Content-Range" (crString cr))
          r).headers "Content-Range" = [crString cr] := by
        rw [headers_writeResource_of_ne env part _ r "Content-Range" hpart (by decide)
          (by decide) (by decide) (by decide) (by decide) (by decide)]
        simp [setHeader]
      have hget : getHeader (writeResource env part (setHeader wv "Content-Range"
          (crString cr)) r) "Content-Range" = crString cr := by
        unfold getHeader
        rw [hres]
        rfl
      rw [hget]
      constructor
      · intro _
        rcases Bool.or_eq_true_iff.mp hcond with h1 | h2
        · exact Or.inl (bne_iff_ne.mp h1)
        · exact Or.inr (bne_iff_ne.mp h2)
      · intro _
        exact crString_ne_empty cr
    · rw [if_neg hcond]
      have hres : (writeResource env part wv r).headers "Content-Range" = [] := by
        rw [headers_writeResource_of_ne env part _ r "Content-Range" hpart (by decide)
          (by decide) (by decide) (by decide) (by decide) (by decide)]
        exact hwv0
      have hget : getHeader (writeResource env part wv r) "Content-Range" = "" := by
        unfold getHeader
        rw [hres]
        rfl
      rw [hget]
      constructor
      · intro hne
        exact absurd rfl hne
      · intro hor
        exfalso
        apply hcond
        rcases hor with h1 | h2
        · exact Bool.or_eq_true_iff.mpr (Or.inl (bne_iff_ne.mpr h1))
        · exact Bool.or_eq_true_iff.mpr (Or.inr (bne_iff_ne.mpr h2))
  · intro res w r ct b hims hinm hh hm hb hpost h0
    unfold writeResource
    rw [hims, hinm]
    simp only [Bool.false_eq_true, if_false]
    rw [hh, hm]
    dsimp only
    rw [hpost]
    have hb2 : (b.length == 0) = false := beq_eq_false_iff_ne.mpr hb
    rw [hb2]
    simp only [Bool.false_eq_true, if_false]
    set w4 := setHeader (setHeader (setHeader (addHeader w "Vary" "Accept") "Last-Modified"
      (env.fmtDate res.lastModified)) "ETag" res.etag) "Expires"
      (env.fmtDate (env.now + res.ttl)) with hw4
    set w5 := setHeader w4 "Content-Type" ct with hw5
    set w6 := if env.getCompressionFormat b r != "" then
        addHeader (setHeader w5 "Content-Encoding" (env.getCompressionFormat b r))
          "Vary" "Accept-Encoding"
      else w5 with hw6
    have e6h : w6.headers "Content-Range" = w.headers "Content-Range" := by
      have e5 : w5.headers "Content-Range" = w.headers "Content-Range" := by
        rw [hw5, headers_setHeader_ne _ _ _ _ (by decide), hw4,
          headers_setHeader_ne _ _ _ _ (by decide), headers_setHeader_ne _ _ _ _ (by decide),
          headers_setHeader_ne _ _ _ _ (by decide), headers_addHeader_ne _ _ _ _ (by decide)]
      rw [hw6]
      split
      · rw [headers_addHeader_ne _ _ _ _ (by decide),
          headers_setHeader_ne _ _ _ _ (by decide), e5]
      · exact e5
    have e6s : w6.status = none := by
      rw [hw6]
      split
      · exact h0
      · exact h0
    have hgeteq : getHeader w6 "Content-Range" = getHeader w "Content-Range" := by
      unfold getHeader
      rw [e6h]
    rw [hgeteq]
    set w7 := if getHeader w "Content-Range" != "" then writeHeader w6 206
      else writeHeader w6 200 with hw7
    have e7 : w7.status = some (if getHeader w "Content-Range" != "" then 206 else 200) := by
      rw [hw7]
      by_cases hcr : (getHeader w "Content-Range" != "") = true
      · rw [if_pos hcr, if_pos hcr]
        exact status_writeHeader_none w6 206 e6s
      · rw [if_neg hcr, if_neg hcr]
        exact status_writeHeader_none w6 200 e6s
    split
    · exact e7
    · exact status_writeBytes_some w7 b _ e7

/-- C3 witness: a concrete ranged GET serving units 2-4 of 10 sets
`Content-Range`, and the concrete `writeResource` run with no
`Content-Range` set answers 200. -/
theorem C3_witness :
    getHeader (getFuncServeHTTP envC3 fGetR emptyResponse reqRange) "Content-Range" ≠ "" ∧
    (writeResource envC3 resPart emptyResponse baseReq).status = some 200 := by
  have h := C3_content_range_and_status envC3
  constructor
  · exact (h.1 fGetR emptyResponse reqRange resA resPart rangerA rgA rgA crA
      rfl rfl rfl rfl rfl rfl rfl rfl).mpr (Or.inl (by decide))
  · exact (h.2 resPart emptyResponse baseReq "text/plain" "abc" rfl rfl rfl rfl
      (by decide) (by decide) rfl).trans (by decide)

end Rst
